import Mathlib

/-!
Verification of the meal-planning handlers in `meals/views.py` of
MINI-PROJECT-SMART-BITE.

The Django view functions are embedded as pure Lean functions.  The
database table of `MealPlan` rows becomes an explicit list of rows plus a
fresh-primary-key counter; HTTP requests become the arguments the handler
actually reads (method, body, the payloads returned by the external
Spoonacular API); HTTP responses become values of small result types.
Exceptions that escape a handler (Http404 from `get_object_or_404`,
KeyError / IndexError on malformed API payloads) are modelled with
`Except`.
-/

namespace SmartBite

/-! ## Python primitives -/

/-- Python `round` on a rational: round half to even (banker's rounding),
as Python 3's built-in `round` behaves on floats and ints. -/
def pyRound (q : ℚ) : ℤ :=
  let f : ℤ := q.floor
  let r : ℚ := q - f
  if r < 1/2 then f
  else if 1/2 < r then f + 1
  else if f % 2 = 0 then f else f + 1

/-- Python `str.capitalize`: first character upper-cased, the rest
lower-cased (ASCII behaviour suffices for the day keys used here). -/
def pyCapitalize (s : String) : String :=
  match s.data with
  | [] => ""
  | c :: rest => String.mk (c.toUpper :: rest.map Char.toLower)

/-! ## Data model

`models.py` is not part of the sources; only the fields and defaults the
views rely on are modelled. -/

/-- One entry of a Spoonacular `nutrition.nutrients` array: the two keys
the views read (`name`, `amount`). -/
structure Nutrient where
  name : String
  amount : ℚ
deriving Repr, DecidableEq

/-- A recipe object of a Spoonacular `recipes/informationBulk` (or
search) response, restricted to the keys the views read.  A missing
`nutrition`/`nutrients` key is the empty list, exactly how the code's
`.get('nutrition', {}).get('nutrients', [])` treats it.  `title` and
`image` are optional because the code accesses them with `.get` (or with
`[...]`, which raises when absent). -/
structure Recipe where
  id : Nat
  title : Option String
  image : Option String
  nutrients : List Nutrient
deriving Repr, DecidableEq

/-- A meal stub inside `plan_data['week'][day]['meals']`: only its `id`
is ever read. -/
structure MealStub where
  id : Nat
deriving Repr, DecidableEq

/-- The `week` object of a `mealplanner/generate` payload: day keys in
dict order, each with its list of meal stubs. -/
abbrev Week := List (String × List MealStub)

/-- A stored `MealPlan` row.  Modelled from the spec: `models.py` is not
in the sources; the spec's data model lists exactly these fields (owning
user, day label, meal slot, recipe name, external recipe identifier,
calorie count, macro strings, image URL, eaten flag, eaten timestamp),
with the eaten flag defaulting to false and the eaten timestamp to null
on creation.  `id` is the auto-assigned primary key; `eaten_at` holds
the (date-granularity) timestamp. -/
structure MealRow where
  id : Nat
  user : Nat
  day : String
  meal_type : String
  meal_name : String
  spoonacular_id : Option Nat
  calories : ℤ
  protein : String
  carbs : String
  fats : String
  image_url : Option String
  eaten : Bool
  eaten_at : Option ℤ
deriving Repr, DecidableEq

/-- The `MealPlan` table: its rows in primary-key creation order and the
next fresh primary key. -/
structure DB where
  rows : List MealRow
  nextId : Nat
deriving Repr, DecidableEq

/-! ## generate_meal_plan -/

/-- The expression `next((n['amount'] for n in nutrition if n['name'] == nm), dflt)`:
the amount of the first nutrient entry with the given name, or the
default. -/
def nextAmount (ns : List Nutrient) (nm : String) (dflt : ℚ) : ℚ :=
  match ns.find? (fun n => n.name == nm) with
  | some n => n.amount
  | none => dflt

/-- The lookup `meal_types_map.get(i, ...)` (default the string `Meal i+1`) with
`meal_types_map = {0: "Breakfast", 1: "Lunch", 2: "Dinner"}`. -/
def mealTypeFor (i : Nat) : String :=
  if i = 0 then "Breakfast"
  else if i = 1 then "Lunch"
  else if i = 2 then "Dinner"
  else "Meal " ++ toString (i + 1)

/-- The lookup `details_map.get(i)` for
`details_map = {recipe['id']: recipe for recipe in recipes_details}`:
with duplicate ids the later recipe wins, so look up the last match. -/
def dmapGet (rs : List Recipe) (i : Nat) : Option Recipe :=
  rs.reverse.find? (fun r => r.id == i)

/-- The row built by the `MealPlan.objects.create(...)` call of
`generate_meal_plan` (views.py lines 96-114) for the `i`-th meal of day
`dayKey`, from recipe details `d`, with fresh primary key `rid`.
Modelled from the spec: the eaten flag and eaten timestamp are not
passed to `create`, so they take the model defaults (false / null). -/
def mkMealRow (u rid : Nat) (dayKey : String) (i : Nat) (d : Recipe) : MealRow :=
  { id := rid
    user := u
    day := pyCapitalize dayKey
    meal_type := mealTypeFor i
    meal_name := d.title.getD "Generated Meal"
    spoonacular_id := some d.id
    calories := pyRound (nextAmount d.nutrients "Calories" 0)
    protein := toString (pyRound (nextAmount d.nutrients "Protein" 0)) ++ "g"
    carbs := toString (pyRound (nextAmount d.nutrients "Carbohydrates" 0)) ++ "g"
    fats := toString (pyRound (nextAmount d.nutrients "Fat" 0)) ++ "g"
    image_url := d.image
    eaten := false
    eaten_at := none }

/-- The inner `for i, meal_stub in enumerate(meals)` loop of
`generate_meal_plan`: creates one row per stub whose id is in the
details map, skipping the others; `i` is the running `enumerate` index
and `nid` the next fresh primary key.  Returns the created rows and the
updated counter. -/
def dayRows (u : Nat) (dayKey : String) (stubs : List MealStub)
    (details : List Recipe) (i nid : Nat) : List MealRow × Nat :=
  match stubs with
  | [] => ([], nid)
  | s :: rest =>
    match dmapGet details s.id with
    | some d =>
      let p := dayRows u dayKey rest details (i + 1) (nid + 1)
      (mkMealRow u nid dayKey i d :: p.1, p.2)
    | none => dayRows u dayKey rest details (i + 1) nid

/-- The outer `for day, meals in meal_structure.items()` loop of
`generate_meal_plan` (`meal_structure` reproduces `plan_data['week']`
verbatim). -/
def weekRows (u : Nat) (wk : Week) (details : List Recipe) (nid : Nat) :
    List MealRow × Nat :=
  match wk with
  | [] => ([], nid)
  | (day, stubs) :: rest =>
    let p := dayRows u day stubs details 0 nid
    let q := weekRows u rest details p.2
    (p.1 ++ q.1, q.2)

/-- What `generate_meal_plan` responds with: a redirect to `meal_plan`
carrying either an error or a success flash message. -/
inductive GenOutcome where
  | errorRedirect (msg : String)
  | successRedirect (msg : String)
deriving Repr, DecidableEq

/-- Handler `generate_meal_plan` (views.py lines 34-117) for user `u`.
`planResp` is the `mealplanner/generate` fetch: `none` when the fetch
returned `None`, `some none` when the payload has no truthy `'week'`
key, `some (some wk)` otherwise.  `detailsResp` is the
`recipes/informationBulk` fetch (`none` = `None`); an empty list is
falsy in Python, so it takes the error path too.  On success the user's
prior rows are deleted and the new rows created in week order. -/
def generate_meal_plan (u : Nat) (db : DB) (planResp : Option (Option Week))
    (detailsResp : Option (List Recipe)) : GenOutcome × DB :=
  match planResp with
  | none =>
    (.errorRedirect "Could not generate a meal plan. The API may be unavailable or your daily quota exceeded.", db)
  | some none =>
    (.errorRedirect "Could not generate a meal plan. The API may be unavailable or your daily quota exceeded.", db)
  | some (some wk) =>
    match detailsResp with
    | none =>
      (.errorRedirect "Could not fetch nutritional details for the meal plan. Please try again.", db)
    | some details =>
      if details.isEmpty then
        (.errorRedirect "Could not fetch nutritional details for the meal plan. Please try again.", db)
      else
        let kept := db.rows.filter (fun r => r.user != u)
        let p := weekRows u wk details db.nextId
        (.successRedirect "Your new, personalized meal plan has been generated!",
         ⟨kept ++ p.1, p.2⟩)

/-! ## JSON responses and raised exceptions -/

/-- A JSON value, as far as the handlers' `JsonResponse` payloads go. -/
inductive JVal where
  | jb (b : Bool)
  | ji (n : ℤ)
  | js (s : String)
  | jnull
  | jobj (fields : List (String × JVal))
deriving Repr

/-- Field lookup in a `jobj` payload (first binding wins, as in a Python
dict literal without duplicate keys). -/
def jLookup : JVal → String → Option JVal
  | .jobj fields, k => (fields.find? (fun f => f.1 == k)).map (·.2)
  | _, _ => none

/-- JSON encoding of a nullable string field such as `image_url`. -/
def jOptStr : Option String → JVal
  | some s => .js s
  | none => .jnull

/-- An exception escaping a handler instead of a returned response:
`Http404` from `get_object_or_404`, or a `KeyError`/`IndexError`/
`TypeError` on a malformed API payload. -/
inductive Raised where
  | http404
  | keyError (k : String)
  | indexError
  | typeError
deriving Repr, DecidableEq

/-- Lookup `get_object_or_404(MealPlan, id=meal_id, user=request.user)`:
the first row matching both filters, if any. -/
def findMeal (db : DB) (u mealId : Nat) : Option MealRow :=
  db.rows.find? (fun r => r.id == mealId && r.user == u)

/-- Saves: `original_meal.save()` / `meal.save()` write the updated row back
over the row with its primary key. -/
def saveRow (db : DB) (r : MealRow) : DB :=
  ⟨db.rows.map (fun x => if x.id == r.id then r else x), db.nextId⟩

/-! ## replace_meal -/

/-- A `recipes/complexSearch` / `recipes/random` payload: the two keys
the code reads.  `none` means the key is absent, `some l` that it holds
the JSON array `l` (possibly empty, which is falsy in Python). -/
structure SearchPayload where
  results : Option (List Recipe)
  recipes : Option (List Recipe)
deriving Repr

/-- Python truthiness of an optional JSON array: absent or empty is
falsy. -/
def listTruthy : Option (List Recipe) → Bool
  | some l => !l.isEmpty
  | none => false

/-- The expression `response_data.get('results', response_data.get('recipes'))`: the
value under `results` when that key is present (even if empty), else
the value under `recipes`. -/
def resultsOrRecipes (p : SearchPayload) : Option (List Recipe) :=
  match p.results with
  | some l => some l
  | none => p.recipes

/-- The failure response of `replace_meal` (views.py line 166): the
JSON error payload, the table untouched. -/
def replaceFailure (db : DB) : Except Raised (JVal × DB) :=
  .ok (.jobj [("success", .jb false),
    ("error", .js "Could not find a replacement meal. Please try again later or check your API quota.")], db)

/-- The body of `replace_meal` once a truthiness-checked payload is in
hand (views.py lines 147-166): guard, first hit, nutrition fallback to
the original's calories, field updates, save, success JSON. -/
def replaceWithPayload (db : DB) (original : MealRow) (p : SearchPayload) :
    Except Raised (JVal × DB) :=
  if listTruthy p.results || listTruthy p.recipes then
    match resultsOrRecipes p with
    | none => .error .typeError
    | some [] => .error .indexError
    | some (newRecipe :: _) =>
      let calories : ℚ :=
        nextAmount newRecipe.nutrients "Calories" (original.calories : ℚ)
      match newRecipe.title with
      | none => .error (.keyError "title")
      | some t =>
        let updated := { original with
          meal_name := t
          spoonacular_id := some newRecipe.id
          calories := pyRound calories
          image_url := newRecipe.image }
        .ok (.jobj [("success", .jb true),
          ("meal_name", .js updated.meal_name),
          ("calories", .ji updated.calories),
          ("image_url", jOptStr updated.image_url)], saveRow db updated)
  else replaceFailure db

/-- Handler `replace_meal` (views.py lines 135-166).  `resp1` is the
`complexSearch` fetch, `resp2` the fallback `recipes/random` fetch (the
code only issues it when the first is falsy or has falsy `results`; the
model simply receives what it would return).  Returns the `JsonResponse`
payload and the updated table, or the exception that escapes. -/
def replace_meal (u mealId : Nat) (db : DB) (isPost : Bool)
    (resp1 resp2 : Option SearchPayload) : Except Raised (JVal × DB) :=
  if isPost then
    match findMeal db u mealId with
    | none => .error .http404
    | some original =>
      let firstFalsy : Bool :=
        match resp1 with
        | none => true
        | some p => !listTruthy p.results
      let rd := if firstFalsy then resp2 else resp1
      match rd with
      | none => replaceFailure db
      | some p => replaceWithPayload db original p
  else replaceFailure db

/-! ## toggle_meal_eaten -/

/-- Handler `toggle_meal_eaten` (views.py lines 170-180); `now` is
`timezone.now()` at date granularity. -/
def toggle_meal_eaten (u mealId : Nat) (db : DB) (isPost : Bool) (now : ℤ) :
    Except Raised (JVal × DB) :=
  if isPost then
    match findMeal db u mealId with
    | none => .error .http404
    | some meal =>
      let flipped := !meal.eaten
      let meal' :=
        if flipped then { meal with eaten := true, eaten_at := some now }
        else { meal with eaten := false, eaten_at := none }
      .ok (.jobj [("success", .jb true), ("eaten", .jb meal'.eaten)],
        saveRow db meal')
  else
    .ok (.jobj [("success", .jb false), ("error", .js "Invalid request")], db)

/-! ## add_meal_to_plan -/

/-- A parsed `add_meal_to_plan` request body: each key the handler reads,
`none` when that key is absent (subscript access then raises KeyError,
caught by the handler's `except Exception`). -/
structure AddBody where
  day : Option String
  meal_type : Option String
  name : Option String
  recipe_id : Option Nat
  calories : Option ℤ
  image : Option String
deriving Repr

/-- Handler `add_meal_to_plan` (views.py lines 307-323).  `body` is `none` when
`json.loads(request.body)` raises.  Every exception inside the `try` is
caught and turned into `{'success': False, 'error': str(e)}`; Python's
`str` of a `KeyError('day')` is `"'day'"`.  Modelled from the spec: the
macro-string fields are not passed to `create`, so the created row takes
the model defaults (the spec records them only as formatted text fields;
the empty string stands for their default). -/
def add_meal_to_plan (u : Nat) (db : DB) (isPost : Bool)
    (body : Option AddBody) : JVal × DB :=
  if isPost then
    match body with
    | none =>
      (.jobj [("success", .jb false),
        ("error", .js "Expecting value: line 1 column 1 (char 0)")], db)
    | some data =>
      match data.day with
      | none => (.jobj [("success", .jb false), ("error", .js "'day'")], db)
      | some day =>
        match data.meal_type with
        | none => (.jobj [("success", .jb false), ("error", .js "'meal_type'")], db)
        | some mtype =>
          match data.name with
          | none => (.jobj [("success", .jb false), ("error", .js "'name'")], db)
          | some nm =>
            match data.recipe_id with
            | none => (.jobj [("success", .jb false), ("error", .js "'recipe_id'")], db)
            | some rid =>
              let row : MealRow :=
                { id := db.nextId
                  user := u
                  day := day
                  meal_type := mtype
                  meal_name := nm
                  spoonacular_id := some rid
                  calories := data.calories.getD 0
                  protein := ""
                  carbs := ""
                  fats := ""
                  image_url := data.image
                  eaten := false
                  eaten_at := none }
              (.jobj [("success", .jb true)], ⟨db.rows ++ [row], db.nextId + 1⟩)
  else
    (.jobj [("success", .jb false), ("error", .js "Invalid request method")], db)

/-! ## progress_view -/

/-- The 7 calendar dates ending today, oldest first (dates are modelled
as integer day ordinals; `strftime('%Y-%m-%d')` becomes `toString`). -/
def progressDates (today : ℤ) : List ℤ :=
  (List.range 7).map (fun (i : ℕ) => today - 6 + (i : ℤ))

/-- The `meals_last_7_days` queryset: the user's eaten meals whose
`eaten_at` date is at least `seven_days_ago` (rows with null `eaten_at`
are excluded by the date filter; the `order_by` does not affect the
aggregation). -/
def mealsLast7 (db : DB) (u : Nat) (start : ℤ) : List MealRow :=
  db.rows.filter (fun r =>
    r.user == u && r.eaten &&
      match r.eaten_at with
      | some d => decide (start ≤ d)
      | none => false)

/-- Bucket value `daily_data[d]['calories']` after the bucketing loop: each fetched
meal lands in the bucket of its `eaten_at` date (the loop's
`if day_str in daily_data` check restricts to the 7 window dates, which
are exactly the `d` this is evaluated at). -/
def dailyCalories (ms : List MealRow) (d : ℤ) : ℤ :=
  ((ms.filter (fun r => r.eaten_at == some d)).map (·.calories)).sum

/-- Bucket value `daily_data[d]['meals']` after the bucketing loop. -/
def dailyMeals (ms : List MealRow) (d : ℤ) : Nat :=
  (ms.filter (fun r => r.eaten_at == some d)).length

/-- The aggregate numbers `progress_view` renders (the best-day figures
are omitted: no claim concerns them). -/
structure ProgressStats where
  dates : List ℤ
  caloriesData : List ℤ
  mealsData : List Nat
  total_calories_week : ℤ
  total_meals_week : Nat
  avg_daily_calories : ℤ
deriving Repr, DecidableEq

/-- The aggregation of `progress_view` (views.py lines 248-270); `//` is
Python floor division, `Int.fdiv`. -/
def progress_view (u : Nat) (db : DB) (today : ℤ) : ProgressStats :=
  let start := today - 6
  let ms := mealsLast7 db u start
  let dates := progressDates today
  let caloriesData := dates.map (dailyCalories ms)
  let mealsData := dates.map (dailyMeals ms)
  let total := caloriesData.sum
  let daysTracked := (caloriesData.filter (fun c => 0 < c)).length
  { dates := dates
    caloriesData := caloriesData
    mealsData := mealsData
    total_calories_week := total
    total_meals_week := mealsData.sum
    avg_daily_calories :=
      if 0 < daysTracked then Int.fdiv total daysTracked else 0 }

/-- The weekly-progress CSV (views.py lines 285-292): header row, then
one row per window date in `daily_data` insertion order. -/
def progressCsv (u : Nat) (db : DB) (today : ℤ) : List (List String) :=
  let ms := mealsLast7 db u (today - 6)
  ["Date", "Calories Consumed", "Meals Eaten"] ::
    (progressDates today).map (fun d =>
      [toString d, toString (dailyCalories ms d), toString (dailyMeals ms d)])

/-! ## grocery_list -/

/-- One entry of a recipe's `extendedIngredients` array: only `name` is
read. -/
structure Ingredient where
  name : String
deriving Repr, DecidableEq

/-- A recipe of the bulk-details response as `grocery_list` reads it:
`.get('extendedIngredients', [])`. -/
structure GroceryRecipe where
  extendedIngredients : List Ingredient
deriving Repr, DecidableEq

/-- The guard `if meal.spoonacular_id:` — Python truthiness: `None` and `0` are
both falsy. -/
def idTruthy : Option Nat → Bool
  | some n => n != 0
  | none => false

/-- The `recipe_ids` list `grocery_list` builds from the user's rows. -/
def groceryIds (db : DB) (u : Nat) : List Nat :=
  (db.rows.filter (fun r => r.user == u && idTruthy r.spoonacular_id)).filterMap
    (·.spoonacular_id)

/-- The capitalized ingredient names added to `ingredient_list`, in
iteration order (the set dedups them; `sorted` fixes the final order).
With no recipe ids there is no fetch, and a `None` or empty (falsy)
response adds nothing. -/
def groceryNames (db : DB) (u : Nat) (resp : Option (List GroceryRecipe)) :
    List String :=
  if (groceryIds db u).isEmpty then []
  else
    match resp with
    | none => []
    | some rs =>
      rs.flatMap (fun r => r.extendedIngredients.map (fun ing => pyCapitalize ing.name))

/-- The expression `sorted(list(ingredient_list))`: the distinct capitalized names in
ascending order. -/
def grocerySorted (db : DB) (u : Nat) (resp : Option (List GroceryRecipe)) :
    List String :=
  List.insertionSort (· ≤ ·) (groceryNames db u resp).dedup

/-- The grocery-list CSV (views.py lines 234-241): the `Ingredient`
header, then one row per sorted distinct ingredient. -/
def groceryCsv (db : DB) (u : Nat) (resp : Option (List GroceryRecipe)) :
    List (List String) :=
  ["Ingredient"] :: (grocerySorted db u resp).map (fun s => [s])

/-- The eaten-tracking invariant: a stored row's `eaten_at` timestamp is
non-null exactly when its `eaten` flag is true. -/
def dbInv (db : DB) : Prop :=
  ∀ r ∈ db.rows, r.eaten_at.isSome = r.eaten

/-! ## Concrete fixtures

Small concrete payloads and tables used to instantiate the theorems. -/

/-- A fully populated recipe details object (id 11). -/
def sampleDet : Recipe :=
  ⟨11, some "Oats", some "img", [⟨"Calories", 250⟩, ⟨"Protein", 10⟩]⟩

/-- A recipe details object with every optional part missing (id 22). -/
def sampleDet2 : Recipe := ⟨22, none, none, []⟩

/-- A one-day plan whose second stub (id 33) has no details entry. -/
def sampleWeek : Week := [("monday", [⟨11⟩, ⟨33⟩])]

/-- A row belonging to another user (id 0, user 9), already eaten. -/
def rowOther : MealRow :=
  ⟨0, 9, "Monday", "Lunch", "x", some 5, 100, "1g", "2g", "3g", none, true, some 3⟩

/-- A not-yet-eaten row of user 7 (id 1). -/
def rowMine : MealRow :=
  ⟨1, 7, "Tuesday", "Dinner", "y", some 6, 200, "4g", "5g", "6g", none, false, none⟩

/-- An eaten row of user 7 (id 2), eaten on date 10. -/
def rowMineEaten : MealRow :=
  ⟨2, 7, "Monday", "Breakfast", "z", some 8, 300, "7g", "8g", "9g", none, true, some 10⟩

/-- A two-user table holding the three rows above. -/
def sampleDB : DB := ⟨[rowOther, rowMine, rowMineEaten], 3⟩

/-- A replacement hit without a `Calories` nutrient entry (id 77). -/
def sampleHit : Recipe := ⟨77, some "New dish", some "nimg", [⟨"Protein", 5⟩]⟩

/-- A search payload whose `results` array holds `sampleHit`. -/
def samplePayload : SearchPayload := ⟨some [sampleHit], none⟩

/-- A bulk-details payload for the grocery list. -/
def sampleGrocery : List GroceryRecipe :=
  [⟨[⟨"rice"⟩, ⟨"beans"⟩]⟩, ⟨[⟨"Rice"⟩]⟩]

/-! ## Helper lemmas -/

/-- Every row the inner creation loop emits belongs to the requesting
user, carries a primary key at least the starting counter, and keeps the
eaten defaults. -/
theorem dayRows_forall (u : Nat) (day : String) (ds : List Recipe) :
    ∀ (stubs : List MealStub) (i nid : Nat) (r : MealRow),
      r ∈ (dayRows u day stubs ds i nid).1 →
      r.user = u ∧ nid ≤ r.id ∧ r.eaten = false ∧ r.eaten_at = none := by
  intro stubs
  induction stubs with
  | nil => intro i nid r h; simp [dayRows] at h
  | cons s rest ih =>
    intro i nid r h
    cases hd : dmapGet ds s.id with
    | some d =>
      simp only [dayRows, hd, List.mem_cons] at h
      rcases h with h | h
      · subst h; exact ⟨rfl, le_refl _, rfl, rfl⟩
      · obtain ⟨h1, h2, h3, h4⟩ := ih (i + 1) (nid + 1) r h
        exact ⟨h1, by omega, h3, h4⟩
    | none =>
      simp only [dayRows, hd] at h
      exact ih (i + 1) nid r h

/-- The primary-key counter never decreases across the inner loop. -/
theorem dayRows_nid_le (u : Nat) (day : String) (ds : List Recipe) :
    ∀ (stubs : List MealStub) (i nid : Nat),
      nid ≤ (dayRows u day stubs ds i nid).2 := by
  intro stubs
  induction stubs with
  | nil => intro i nid; simp [dayRows]
  | cons s rest ih =>
    intro i nid
    cases hd : dmapGet ds s.id with
    | some d =>
      simp only [dayRows, hd]
      have := ih (i + 1) (nid + 1)
      omega
    | none =>
      simp only [dayRows, hd]
      exact ih (i + 1) nid

/-- Every row the outer creation loop emits belongs to the requesting
user, carries a primary key at least the starting counter, and keeps the
eaten defaults. -/
theorem weekRows_forall (u : Nat) (ds : List Recipe) :
    ∀ (wk : Week) (nid : Nat) (r : MealRow),
      r ∈ (weekRows u wk ds nid).1 →
      r.user = u ∧ nid ≤ r.id ∧ r.eaten = false ∧ r.eaten_at = none := by
  intro wk
  induction wk with
  | nil => intro nid r h; simp [weekRows] at h
  | cons p rest ih =>
    intro nid r h
    obtain ⟨day, stubs⟩ := p
    simp only [weekRows, List.mem_append] at h
    rcases h with h | h
    · exact dayRows_forall u day ds stubs 0 nid r h
    · obtain ⟨h1, h2, h3, h4⟩ :=
        ih (dayRows u day stubs ds 0 nid).2 r h
      have := dayRows_nid_le u day ds stubs 0 nid
      exact ⟨h1, by omega, h3, h4⟩

/-- The inner loop creates exactly one row per stub whose id is present
in the details map. -/
theorem dayRows_length (u : Nat) (day : String) (ds : List Recipe) :
    ∀ (stubs : List MealStub) (i nid : Nat),
      (dayRows u day stubs ds i nid).1.length
        = stubs.countP (fun s => (dmapGet ds s.id).isSome) := by
  intro stubs
  induction stubs with
  | nil => intro i nid; simp [dayRows]
  | cons s rest ih =>
    intro i nid
    cases hd : dmapGet ds s.id with
    | some d =>
      simp only [dayRows, hd, List.length_cons, List.countP_cons, ih (i + 1) (nid + 1)]
      simp [hd]
    | none =>
      simp only [dayRows, hd, List.countP_cons, ih (i + 1) nid]
      simp [hd]

/-- The outer loop creates exactly one row per plan meal whose id is
present in the details map. -/
theorem weekRows_length (u : Nat) (ds : List Recipe) :
    ∀ (wk : Week) (nid : Nat),
      (weekRows u wk ds nid).1.length
        = (wk.map (fun p => p.2.countP (fun s => (dmapGet ds s.id).isSome))).sum := by
  intro wk
  induction wk with
  | nil => intro nid; simp [weekRows]
  | cons p rest ih =>
    intro nid
    obtain ⟨day, stubs⟩ := p
    simp only [weekRows, List.length_append, List.map_cons, List.sum_cons,
      dayRows_length u day ds stubs 0 nid, ih]

/-- If the `j`-th stub of a day has a details entry, the inner loop emits
its row, built at enumeration index `i0 + j`. -/
theorem dayRows_mem (u : Nat) (day : String) (ds : List Recipe) :
    ∀ (stubs : List MealStub) (i0 nid j : Nat) (hj : j < stubs.length)
      (det : Recipe),
      dmapGet ds (stubs.get ⟨j, hj⟩).id = some det →
      ∃ rid, mkMealRow u rid day (i0 + j) det ∈ (dayRows u day stubs ds i0 nid).1 := by
  intro stubs
  induction stubs with
  | nil => intro i0 nid j hj; simp at hj
  | cons s rest ih =>
    intro i0 nid j hj det hdet
    cases j with
    | zero =>
      simp only [List.get] at hdet
      refine ⟨nid, ?_⟩
      simp only [dayRows, hdet, Nat.add_zero, List.mem_cons]
      exact Or.inl trivial
    | succ j' =>
      have hj' : j' < rest.length := Nat.lt_of_succ_lt_succ hj
      have hdet' : dmapGet ds (rest.get ⟨j', hj'⟩).id = some det := hdet
      cases hd : dmapGet ds s.id with
      | some d =>
        obtain ⟨rid, hmem⟩ := ih (i0 + 1) (nid + 1) j' hj' det hdet'
        refine ⟨rid, ?_⟩
        simp only [dayRows, hd, List.mem_cons]
        right
        have : i0 + 1 + j' = i0 + (j' + 1) := by omega
        rwa [this] at hmem
      | none =>
        obtain ⟨rid, hmem⟩ := ih (i0 + 1) nid j' hj' det hdet'
        refine ⟨rid, ?_⟩
        simp only [dayRows, hd]
        have : i0 + 1 + j' = i0 + (j' + 1) := by omega
        rwa [this] at hmem

/-- If the `j`-th stub of a listed day has a details entry, the outer
loop emits its row, built at enumeration index `j`. -/
theorem weekRows_mem (u : Nat) (ds : List Recipe) :
    ∀ (wk : Week) (nid : Nat) (day : String) (stubs : List MealStub),
      (day, stubs) ∈ wk →
      ∀ (j : Nat) (hj : j < stubs.length) (det : Recipe),
        dmapGet ds (stubs.get ⟨j, hj⟩).id = some det →
        ∃ rid, mkMealRow u rid day j det ∈ (weekRows u wk ds nid).1 := by
  intro wk
  induction wk with
  | nil => intro nid day stubs h; simp at h
  | cons p rest ih =>
    intro nid day stubs hmem j hj det hdet
    rcases List.mem_cons.mp hmem with h | h
    · obtain ⟨rid, hr⟩ := dayRows_mem u day ds stubs 0 nid j hj det hdet
      refine ⟨rid, ?_⟩
      rw [← h]
      simp only [weekRows, List.mem_append]
      rw [Nat.zero_add] at hr
      exact Or.inl hr
    · obtain ⟨day', stubs'⟩ := p
      obtain ⟨rid, hr⟩ :=
        ih (dayRows u day' stubs' ds 0 nid).2 day stubs h j hj det hdet
      exact ⟨rid, by simp only [weekRows, List.mem_append]; exact Or.inr hr⟩

/-- On the success path (a plan with a week, truthy details) the final
table is the other users' rows followed by the freshly created rows. -/
theorem generate_success_rows (u : Nat) (db : DB) (wk : Week)
    (ds : List Recipe) (hne : ds.isEmpty = false) :
    (generate_meal_plan u db (some (some wk)) (some ds)).2.rows
      = db.rows.filter (fun r => r.user != u) ++ (weekRows u wk ds db.nextId).1 := by
  simp [generate_meal_plan, hne]

/-! ## Claims -/

/-- C1: for every successful run of `generate_meal_plan` (the plan fetch
returns a payload containing `week` and the bulk details fetch returns a
payload), every `MealPlan` row previously stored for the requesting user
is deleted before the new plan's rows are created, and rows belonging to
every other user are left unchanged. -/
theorem generate_replaces_only_user_rows (u : Nat) (db : DB) (wk : Week)
    (ds : List Recipe) (hid : ∀ r ∈ db.rows, r.id < db.nextId)
    (hne : ds.isEmpty = false) :
    ((generate_meal_plan u db (some (some wk)) (some ds)).2.rows.filter
        (fun r => r.user != u)
      = db.rows.filter (fun r => r.user != u)) ∧
    (∀ r ∈ db.rows, r.user = u →
      r ∉ (generate_meal_plan u db (some (some wk)) (some ds)).2.rows) ∧
    (∀ r ∈ (generate_meal_plan u db (some (some wk)) (some ds)).2.rows,
      r ∉ db.rows → r.user = u) := by
  have hrows := generate_success_rows u db wk ds hne
  refine ⟨?_, ?_, ?_⟩
  · rw [hrows, List.filter_append]
    have h1 : (db.rows.filter (fun r => r.user != u)).filter (fun r => r.user != u)
        = db.rows.filter (fun r => r.user != u) := by
      rw [List.filter_filter]
      apply List.filter_congr
      intro x _
      rw [Bool.and_self]
    have h2 : (weekRows u wk ds db.nextId).1.filter (fun r => r.user != u) = [] := by
      apply List.filter_eq_nil_iff.mpr
      intro r hr
      have := (weekRows_forall u ds wk db.nextId r hr).1
      simp [this]
    rw [h1, h2, List.append_nil]
  · intro r hr hru
    rw [hrows]
    intro hmem
    rcases List.mem_append.mp hmem with h | h
    · have := List.of_mem_filter h
      simp [hru] at this
    · have h2 := (weekRows_forall u ds wk db.nextId r h).2.1
      have hlt := hid r hr
      omega
  · intro r hr hnot
    rw [hrows] at hr
    rcases List.mem_append.mp hr with h | h
    · exact absurd (List.mem_of_mem_filter h) hnot
    · exact (weekRows_forall u ds wk db.nextId r h).1

/-- Witness for C1 at a concrete two-user table and one-day plan. -/
theorem generate_replaces_only_user_rows_witness :
    (∀ r ∈ sampleDB.rows, r.id < sampleDB.nextId) ∧
    ([sampleDet].isEmpty = false) ∧
    (((generate_meal_plan 7 sampleDB (some (some sampleWeek)) (some [sampleDet])).2.rows.filter
        (fun r => r.user != 7)
      = sampleDB.rows.filter (fun r => r.user != 7)) ∧
    (∀ r ∈ sampleDB.rows, r.user = 7 →
      r ∉ (generate_meal_plan 7 sampleDB (some (some sampleWeek)) (some [sampleDet])).2.rows) ∧
    (∀ r ∈ (generate_meal_plan 7 sampleDB (some (some sampleWeek)) (some [sampleDet])).2.rows,
      r ∉ sampleDB.rows → r.user = 7)) :=
  ⟨by decide, by decide,
    generate_replaces_only_user_rows 7 sampleDB sampleWeek [sampleDet]
      (by decide) (by decide)⟩

/-- C2: if either external API call in `generate_meal_plan` fails (the
plan fetch returns `None` or a payload without a `week` key, or the bulk
details fetch returns `None`), the handler surfaces an error flash
message and redirects, and the requesting user's stored rows are
unchanged: prior rows are deleted only after both fetches succeeded. -/
theorem generate_failure_leaves_table_unchanged (u : Nat) (db : DB)
    (planResp : Option (Option Week)) (detailsResp : Option (List Recipe))
    (h : planResp = none ∨ planResp = some none ∨ detailsResp = none) :
    (generate_meal_plan u db planResp detailsResp).2 = db ∧
    ∃ m, (generate_meal_plan u db planResp detailsResp).1
      = GenOutcome.errorRedirect m := by
  rcases h with h | h | h
  · subst h; exact ⟨rfl, ⟨_, rfl⟩⟩
  · subst h; exact ⟨rfl, ⟨_, rfl⟩⟩
  · subst h
    cases planResp with
    | none => exact ⟨rfl, ⟨_, rfl⟩⟩
    | some op =>
      cases op with
      | none => exact ⟨rfl, ⟨_, rfl⟩⟩
      | some wk => exact ⟨rfl, ⟨_, rfl⟩⟩

/-- Witness for C2: a failed plan fetch leaves the concrete table
unchanged and reports an error. -/
theorem generate_failure_leaves_table_unchanged_witness :
    ((none : Option (Option Week)) = none ∨ (none : Option (Option Week)) = some none ∨
      (some [sampleDet] : Option (List Recipe)) = none) ∧
    ((generate_meal_plan 7 sampleDB none (some [sampleDet])).2 = sampleDB ∧
     ∃ m, (generate_meal_plan 7 sampleDB none (some [sampleDet])).1
       = GenOutcome.errorRedirect m) :=
  ⟨Or.inl rfl,
    generate_failure_leaves_table_unchanged 7 sampleDB none (some [sampleDet])
      (Or.inl rfl)⟩

/-- C10: in `generate_meal_plan`, a meal of the fetched plan whose recipe
id is absent from the bulk-details response produces no stored row: a
row is created only for meals whose id appears in the details map, so
the stored plan can hold fewer rows than the fetched plan while the
success message is still shown. -/
theorem generate_drops_meals_missing_details (u : Nat) (db : DB) (wk : Week)
    (ds : List Recipe) (hne : ds.isEmpty = false) :
    (generate_meal_plan u db (some (some wk)) (some ds)).1
      = GenOutcome.successRedirect
          "Your new, personalized meal plan has been generated!" ∧
    ((generate_meal_plan u db (some (some wk)) (some ds)).2.rows.filter
        (fun r => r.user == u)).length
      = (wk.map (fun p => p.2.countP (fun s => (dmapGet ds s.id).isSome))).sum := by
  constructor
  · simp [generate_meal_plan, hne]
  · rw [generate_success_rows u db wk ds hne, List.filter_append]
    have h1 : (db.rows.filter (fun r => r.user != u)).filter (fun r => r.user == u)
        = [] := by
      apply List.filter_eq_nil_iff.mpr
      intro r hr
      have := List.of_mem_filter hr
      simp at this ⊢
      exact this
    have h2 : (weekRows u wk ds db.nextId).1.filter (fun r => r.user == u)
        = (weekRows u wk ds db.nextId).1 := by
      apply List.filter_eq_self.mpr
      intro r hr
      have := (weekRows_forall u ds wk db.nextId r hr).1
      simp [this]
    rw [h1, h2, List.nil_append, weekRows_length]

/-- Witness for C10: the concrete plan lists two meals but only one id
has details, so exactly one row is stored while success is reported. -/
theorem generate_drops_meals_missing_details_witness :
    ([sampleDet].isEmpty = false) ∧
    ((generate_meal_plan 7 sampleDB (some (some sampleWeek)) (some [sampleDet])).1
      = GenOutcome.successRedirect
          "Your new, personalized meal plan has been generated!" ∧
    ((generate_meal_plan 7 sampleDB (some (some sampleWeek)) (some [sampleDet])).2.rows.filter
        (fun r => r.user == 7)).length
      = (sampleWeek.map
          (fun p => p.2.countP (fun s => (dmapGet [sampleDet] s.id).isSome))).sum) :=
  ⟨by decide,
    generate_drops_meals_missing_details 7 sampleDB sampleWeek [sampleDet] (by decide)⟩

/-- C4: for every day of a generated plan, the `i`-th meal of that day
(0-based, in API order) is stored with meal type `Breakfast` for `i = 0`,
`Lunch` for `i = 1`, `Dinner` for `i = 2` and `Meal i+1` later, and the
stored day label is the API's day key capitalized. -/
theorem generate_bucketing (u : Nat) (db : DB) (wk : Week) (ds : List Recipe)
    (day : String) (stubs : List MealStub) (i : Nat) (det : Recipe)
    (hne : ds.isEmpty = false) (hday : (day, stubs) ∈ wk)
    (hi : i < stubs.length)
    (hdet : dmapGet ds (stubs.get ⟨i, hi⟩).id = some det) :
    ∃ row, row ∈ (generate_meal_plan u db (some (some wk)) (some ds)).2.rows ∧
      row.user = u ∧
      row.day = pyCapitalize day ∧
      row.meal_type =
        (if i = 0 then "Breakfast"
         else if i = 1 then "Lunch"
         else if i = 2 then "Dinner"
         else "Meal " ++ toString (i + 1)) ∧
      row.meal_name = det.title.getD "Generated Meal" ∧
      row.spoonacular_id = some det.id := by
  obtain ⟨rid, hmem⟩ := weekRows_mem u ds wk db.nextId day stubs hday i hi det hdet
  refine ⟨mkMealRow u rid day i det, ?_, rfl, rfl, rfl, rfl, rfl⟩
  rw [generate_success_rows u db wk ds hne]
  exact List.mem_append.mpr (Or.inr hmem)

/-- Witness for C4: the first meal of the concrete plan's `monday` is
stored as `Breakfast` under the day label `Monday`. -/
theorem generate_bucketing_witness :
    ([sampleDet].isEmpty = false) ∧
    (("monday", [(⟨11⟩ : MealStub), ⟨33⟩]) ∈ sampleWeek) ∧
    (dmapGet [sampleDet] (([(⟨11⟩ : MealStub), ⟨33⟩].get ⟨0, by decide⟩).id)
      = some sampleDet) ∧
    (∃ row,
      row ∈ (generate_meal_plan 7 sampleDB (some (some sampleWeek)) (some [sampleDet])).2.rows ∧
      row.user = 7 ∧
      row.day = pyCapitalize "monday" ∧
      row.meal_type =
        (if 0 = 0 then "Breakfast"
         else if 0 = 1 then "Lunch"
         else if 0 = 2 then "Dinner"
         else "Meal " ++ toString (0 + 1)) ∧
      row.meal_name = sampleDet.title.getD "Generated Meal" ∧
      row.spoonacular_id = some sampleDet.id) :=
  ⟨by decide, by decide, by decide,
    generate_bucketing 7 sampleDB sampleWeek [sampleDet] "monday"
      [⟨11⟩, ⟨33⟩] 0 sampleDet (by decide) (by decide) (by decide) (by decide)⟩

/-- The executable rational floor agrees with the floor of the ordered
field structure. -/
theorem ratFloor_intFloor (q : ℚ) : q.floor = ⌊q⌋ := by
  rw [Rat.floor_def]
  exact Rat.floor_def' q

/-- Rounding an integer-valued rational is the identity (Python
`round(int)` returns the int). -/
theorem pyRound_intCast (n : ℤ) : pyRound (n : ℚ) = n := by
  unfold pyRound
  rw [ratFloor_intFloor, Int.floor_intCast]
  norm_num

/-- C3: each of calories, protein, carbs and fats is taken from the
amount of the first nutrient entry named `Calories`, `Protein`,
`Carbohydrates` or `Fat` respectively, and defaults to 0 when the
nutrient list contains no such entry; in `replace_meal` a missing
`Calories` entry makes the new calorie value default to the original
meal's stored calorie count instead of 0. -/
theorem nutrition_extraction_defaults (u rid : Nat) (day : String) (i : Nat)
    (d : Recipe) :
    (∀ n, d.nutrients.find? (fun x => x.name == "Calories") = some n →
      (mkMealRow u rid day i d).calories = pyRound n.amount) ∧
    (d.nutrients.find? (fun x => x.name == "Calories") = none →
      (mkMealRow u rid day i d).calories = 0) ∧
    (∀ n, d.nutrients.find? (fun x => x.name == "Protein") = some n →
      (mkMealRow u rid day i d).protein = toString (pyRound n.amount) ++ "g") ∧
    (d.nutrients.find? (fun x => x.name == "Protein") = none →
      (mkMealRow u rid day i d).protein = "0g") ∧
    (∀ n, d.nutrients.find? (fun x => x.name == "Carbohydrates") = some n →
      (mkMealRow u rid day i d).carbs = toString (pyRound n.amount) ++ "g") ∧
    (d.nutrients.find? (fun x => x.name == "Carbohydrates") = none →
      (mkMealRow u rid day i d).carbs = "0g") ∧
    (∀ n, d.nutrients.find? (fun x => x.name == "Fat") = some n →
      (mkMealRow u rid day i d).fats = toString (pyRound n.amount) ++ "g") ∧
    (d.nutrients.find? (fun x => x.name == "Fat") = none →
      (mkMealRow u rid day i d).fats = "0g") ∧
    (∀ (u' mealId : Nat) (db : DB) (resp2 : Option SearchPayload)
      (p : SearchPayload) (hit : Recipe) (t : List Recipe) (m : MealRow)
      (ttl : String),
      p.results = some (hit :: t) →
      hit.nutrients.find? (fun x => x.name == "Calories") = none →
      hit.title = some ttl →
      findMeal db u' mealId = some m →
      ∃ j db', replace_meal u' mealId db true (some p) resp2
          = Except.ok (j, db') ∧
        jLookup j "success" = some (JVal.jb true) ∧
        jLookup j "calories" = some (JVal.ji m.calories)) := by
  have hz : pyRound ((0 : ℤ) : ℚ) = 0 := pyRound_intCast 0
  norm_num at hz
  refine ⟨?_, ?_, ?_, ?_, ?_, ?_, ?_, ?_, ?_⟩
  · intro n h; simp [mkMealRow, nextAmount, h]
  · intro h
    simp only [mkMealRow, nextAmount, h]
    exact hz
  · intro n h; simp [mkMealRow, nextAmount, h]
  · intro h
    simp only [mkMealRow, nextAmount, h]
    rw [hz]; rfl
  · intro n h; simp [mkMealRow, nextAmount, h]
  · intro h
    simp only [mkMealRow, nextAmount, h]
    rw [hz]; rfl
  · intro n h; simp [mkMealRow, nextAmount, h]
  · intro h
    simp only [mkMealRow, nextAmount, h]
    rw [hz]; rfl
  · intro u' mealId db resp2 p hit t m ttl hres hcal httl hfind
    have hlt : listTruthy p.results = true := by
      rw [hres]; simp [listTruthy]
    have heq : replace_meal u' mealId db true (some p) resp2
        = Except.ok (JVal.jobj [("success", JVal.jb true),
            ("meal_name", JVal.js ttl),
            ("calories", JVal.ji m.calories),
            ("image_url", jOptStr hit.image)],
          saveRow db
            { m with
              meal_name := ttl
              spoonacular_id := some hit.id
              calories := m.calories
              image_url := hit.image }) := by
      simp [replace_meal, replaceWithPayload, hfind, listTruthy,
        resultsOrRecipes, hres, nextAmount, hcal, httl, pyRound_intCast]
    exact ⟨_, _, heq, rfl, rfl⟩

/-- Witness for C3: a details object with no nutrient entries stores 0
calories, and a swap hit without a `Calories` entry keeps the original
meal's 200 stored calories. -/
theorem nutrition_extraction_defaults_witness :
    (sampleDet2.nutrients.find? (fun x => x.name == "Calories") = none) ∧
    ((mkMealRow 7 5 "monday" 0 sampleDet2).calories = 0) ∧
    (samplePayload.results = some [sampleHit]) ∧
    (sampleHit.nutrients.find? (fun x => x.name == "Calories") = none) ∧
    (sampleHit.title = some "New dish") ∧
    (findMeal sampleDB 7 1 = some rowMine) ∧
    (∃ j db', replace_meal 7 1 sampleDB true (some samplePayload) none
        = Except.ok (j, db') ∧
      jLookup j "success" = some (JVal.jb true) ∧
      jLookup j "calories" = some (JVal.ji rowMine.calories)) :=
  ⟨by decide,
    (nutrition_extraction_defaults 7 5 "monday" 0 sampleDet2).2.1 (by decide),
    by decide, by decide, by decide, by decide,
    (nutrition_extraction_defaults 7 5 "monday" 0 sampleDet2).2.2.2.2.2.2.2.2
      7 1 sampleDB none samplePayload sampleHit [] rowMine "New dish"
      (by decide) (by decide) (by decide) (by decide)⟩

/-- Bucketing the 7-day queryset by a window date is the same as
filtering the whole table for that user, eaten flag and date. -/
theorem mealsLast7_filter_date (db : DB) (u : Nat) (start d : ℤ)
    (hd : start ≤ d) :
    (mealsLast7 db u start).filter (fun r => r.eaten_at == some d)
      = db.rows.filter (fun r => r.user == u && r.eaten && r.eaten_at == some d) := by
  unfold mealsLast7
  rw [List.filter_filter]
  apply List.filter_congr
  intro r _
  cases h : r.eaten_at with
  | none => simp [h]
  | some x =>
    by_cases hx : x = d
    · subst hx
      simp [h, hd]
    · have hxd : (x == d) = false := by simp [hx]
      simp [h, hxd]

/-- Every date of the 7-day window is at least `today - 6`. -/
theorem mem_progressDates_ge (today d : ℤ) (h : d ∈ progressDates today) :
    today - 6 ≤ d := by
  unfold progressDates at h
  rw [List.mem_map] at h
  obtain ⟨i, hi, rfl⟩ := h
  rw [List.mem_range] at hi
  omega

/-- C5: `progress_view` aggregates over the 7 calendar dates ending
today; each date's calorie total is the sum of the calories of the
requesting user's meals with eaten true whose `eaten_at` falls on that
date, the per-date meal count counts those meals, the weekly totals are
the sums over the 7 dates, and the average is the weekly calorie total
floor-divided by the number of dates with a positive calorie total (0
when no date has a positive total). -/
theorem progress_aggregation (u : Nat) (db : DB) (today : ℤ) :
    (progress_view u db today).dates
      = [today - 6, today - 5, today - 4, today - 3, today - 2, today - 1, today] ∧
    (progress_view u db today).caloriesData
      = (progress_view u db today).dates.map (fun d =>
          ((db.rows.filter (fun r => r.user == u && r.eaten && r.eaten_at == some d)).map
            (fun r => r.calories)).sum) ∧
    (progress_view u db today).mealsData
      = (progress_view u db today).dates.map (fun d =>
          (db.rows.filter (fun r => r.user == u && r.eaten && r.eaten_at == some d)).length) ∧
    (progress_view u db today).total_calories_week
      = (progress_view u db today).caloriesData.sum ∧
    (progress_view u db today).total_meals_week
      = (progress_view u db today).mealsData.sum ∧
    (progress_view u db today).avg_daily_calories
      = (if 0 < ((progress_view u db today).caloriesData.filter (fun c => 0 < c)).length
         then Int.fdiv (progress_view u db today).total_calories_week
           (((progress_view u db today).caloriesData.filter (fun c => 0 < c)).length)
         else 0) := by
  have hdates : progressDates today
      = [today - 6, today - 5, today - 4, today - 3, today - 2, today - 1, today] := by
    have h7 : List.range 7 = [0, 1, 2, 3, 4, 5, 6] := rfl
    unfold progressDates
    rw [h7]
    simp only [List.map_cons, List.map_nil, List.cons.injEq, and_true]
    norm_num
    omega
  refine ⟨?_, ?_, ?_, rfl, rfl, rfl⟩
  · exact hdates
  · show (progressDates today).map (dailyCalories (mealsLast7 db u (today - 6))) = _
    apply List.map_congr_left
    intro d hd
    unfold dailyCalories
    rw [mealsLast7_filter_date db u (today - 6) d (mem_progressDates_ge today d hd)]
  · show (progressDates today).map (dailyMeals (mealsLast7 db u (today - 6))) = _
    apply List.map_congr_left
    intro d hd
    unfold dailyMeals
    rw [mealsLast7_filter_date db u (today - 6) d (mem_progressDates_ge today d hd)]

/-- C6: the grocery-list CSV is the single header row `Ingredient`
followed by one row per distinct ingredient name (capitalized,
deduplicated) in ascending order, and the weekly-progress CSV is the
header `Date`, `Calories Consumed`, `Meals Eaten` followed by one row
per window date with that date's calorie total and meal count. -/
theorem csv_export_formats (db : DB) (u : Nat)
    (resp : Option (List GroceryRecipe)) (today : ℤ) :
    groceryCsv db u resp
      = ["Ingredient"] :: (grocerySorted db u resp).map (fun s => [s]) ∧
    List.Sorted (· ≤ ·) (grocerySorted db u resp) ∧
    (grocerySorted db u resp).Nodup ∧
    (∀ s, s ∈ grocerySorted db u resp ↔ s ∈ groceryNames db u resp) ∧
    progressCsv u db today
      = ["Date", "Calories Consumed", "Meals Eaten"] ::
          (progressDates today).map (fun d =>
            [toString d,
             toString (((db.rows.filter
                (fun r => r.user == u && r.eaten && r.eaten_at == some d)).map
                  (fun r => r.calories)).sum),
             toString ((db.rows.filter
                (fun r => r.user == u && r.eaten && r.eaten_at == some d)).length)]) := by
  refine ⟨rfl, ?_, ?_, ?_, ?_⟩
  · exact List.sorted_insertionSort _ _
  · exact ((List.perm_insertionSort _ _).nodup_iff).mpr (List.nodup_dedup _)
  · intro s
    exact ((List.perm_insertionSort _ _).mem_iff).trans List.mem_dedup
  · simp only [progressCsv]
    congr 1
    apply List.map_congr_left
    intro d hd
    have hw := mealsLast7_filter_date db u (today - 6) d
      (mem_progressDates_ge today d hd)
    simp only [dailyCalories, dailyMeals, hw]

/-- Decomposition of an `ok` result of the failure response. -/
theorem replaceFailure_ok (db : DB) (j : JVal) (db' : DB)
    (h : replaceFailure db = Except.ok (j, db')) :
    db' = db ∧ ∃ s, j = JVal.jobj [("success", JVal.jb false),
      ("error", JVal.js s)] := by
  unfold replaceFailure at h
  injection h with hp
  injection hp with hj hdb
  exact ⟨hdb.symm, ⟨_, hj.symm⟩⟩

/-- Case analysis of `replaceWithPayload` when it returns (rather than
raises): either the failure JSON with the table untouched, or the
success JSON together with the saved update of the original row. -/
theorem replaceWithPayload_cases (db : DB) (m : MealRow) (p : SearchPayload)
    (j : JVal) (db' : DB)
    (h : replaceWithPayload db m p = Except.ok (j, db')) :
    (db' = db ∧ ∃ s, j = JVal.jobj [("success", JVal.jb false),
      ("error", JVal.js s)]) ∨
    (∃ (hit : Recipe) (ttl : String), hit.title = some ttl ∧
      j = JVal.jobj [("success", JVal.jb true), ("meal_name", JVal.js ttl),
        ("calories", JVal.ji (pyRound (nextAmount hit.nutrients "Calories" (m.calories : ℚ)))),
        ("image_url", jOptStr hit.image)] ∧
      db' = saveRow db
        { m with
          meal_name := ttl
          spoonacular_id := some hit.id
          calories := pyRound (nextAmount hit.nutrients "Calories" (m.calories : ℚ))
          image_url := hit.image }) := by
  unfold replaceWithPayload at h
  by_cases hg : (listTruthy p.results || listTruthy p.recipes) = true
  · rw [if_pos hg] at h
    cases hro : resultsOrRecipes p with
    | none => rw [hro] at h; exact absurd h (by simp)
    | some l =>
      cases l with
      | nil => rw [hro] at h; exact absurd h (by simp)
      | cons newRecipe tail =>
        simp only [hro] at h
        cases httl : newRecipe.title with
        | none =>
          simp only [httl] at h
          exact absurd h (by simp)
        | some ttl =>
          simp only [httl] at h
          right
          injection h with hp
          injection hp with hj hdb
          exact ⟨newRecipe, ttl, httl, hj.symm, hdb.symm⟩
  · rw [if_neg hg] at h
    exact Or.inl (replaceFailure_ok db j db' h)

/-- Case analysis of `replace_meal` when it returns: the failure JSON
with the table untouched, or the success JSON and the saved update of
the found row. -/
theorem replace_meal_ok_cases (u mealId : Nat) (db : DB) (isPost : Bool)
    (r1 r2 : Option SearchPayload) (j : JVal) (db' : DB)
    (h : replace_meal u mealId db isPost r1 r2 = Except.ok (j, db')) :
    (db' = db ∧ ∃ s, j = JVal.jobj [("success", JVal.jb false),
      ("error", JVal.js s)]) ∨
    (∃ (m : MealRow) (hit : Recipe) (ttl : String),
      findMeal db u mealId = some m ∧ hit.title = some ttl ∧
      j = JVal.jobj [("success", JVal.jb true), ("meal_name", JVal.js ttl),
        ("calories", JVal.ji (pyRound (nextAmount hit.nutrients "Calories" (m.calories : ℚ)))),
        ("image_url", jOptStr hit.image)] ∧
      db' = saveRow db
        { m with
          meal_name := ttl
          spoonacular_id := some hit.id
          calories := pyRound (nextAmount hit.nutrients "Calories" (m.calories : ℚ))
          image_url := hit.image }) := by
  cases isPost with
  | false =>
    have h' : replaceFailure db = Except.ok (j, db') := h
    exact Or.inl (replaceFailure_ok db j db' h')
  | true =>
    unfold replace_meal at h
    rw [if_pos rfl] at h
    cases hf : findMeal db u mealId with
    | none =>
      rw [hf] at h
      exact absurd h (by simp)
    | some m =>
      rw [hf] at h
      have step : ∀ (rd : Option SearchPayload),
          (match rd with
            | none => replaceFailure db
            | some p => replaceWithPayload db m p) = Except.ok (j, db') →
          (db' = db ∧ ∃ s, j = JVal.jobj [("success", JVal.jb false),
            ("error", JVal.js s)]) ∨
          (∃ (hit : Recipe) (ttl : String), hit.title = some ttl ∧
            j = JVal.jobj [("success", JVal.jb true), ("meal_name", JVal.js ttl),
              ("calories", JVal.ji (pyRound (nextAmount hit.nutrients "Calories" (m.calories : ℚ)))),
              ("image_url", jOptStr hit.image)] ∧
            db' = saveRow db
              { m with
                meal_name := ttl
                spoonacular_id := some hit.id
                calories := pyRound (nextAmount hit.nutrients "Calories" (m.calories : ℚ))
                image_url := hit.image }) := by
        intro rd hrd
        cases rd with
        | none => exact Or.inl (replaceFailure_ok db j db' hrd)
        | some p => exact replaceWithPayload_cases db m p j db' hrd
      cases r1 with
      | none =>
        simp only [Bool.not_true, Bool.not_false] at h
        rcases step r2 h with hfail | ⟨hit, ttl, h1, h2, h3⟩
        · exact Or.inl hfail
        · exact Or.inr ⟨m, hit, ttl, rfl, h1, h2, h3⟩
      | some q =>
        cases ht : listTruthy q.results with
        | true =>
          simp only [ht, Bool.not_true] at h
          rcases step (some q) h with hfail | ⟨hit, ttl, h1, h2, h3⟩
          · exact Or.inl hfail
          · exact Or.inr ⟨m, hit, ttl, rfl, h1, h2, h3⟩
        | false =>
          simp only [ht, Bool.not_false] at h
          rcases step r2 h with hfail | ⟨hit, ttl, h1, h2, h3⟩
          · exact Or.inl hfail
          · exact Or.inr ⟨m, hit, ttl, rfl, h1, h2, h3⟩

/-- Case analysis of `toggle_meal_eaten` when it returns: the invalid-
request JSON with the table untouched, or the success JSON with the
flipped flag saved. -/
theorem toggle_ok_cases (u mealId : Nat) (db : DB) (isPost : Bool) (now : ℤ)
    (j : JVal) (db' : DB)
    (h : toggle_meal_eaten u mealId db isPost now = Except.ok (j, db')) :
    (j = JVal.jobj [("success", JVal.jb false),
      ("error", JVal.js "Invalid request")] ∧ db' = db) ∨
    (∃ m : MealRow, findMeal db u mealId = some m ∧
      j = JVal.jobj [("success", JVal.jb true), ("eaten", JVal.jb (!m.eaten))] ∧
      db' = saveRow db
        (if m.eaten then { m with eaten := false, eaten_at := none }
         else { m with eaten := true, eaten_at := some now })) := by
  cases isPost with
  | false =>
    have h' : (Except.ok (JVal.jobj [("success", JVal.jb false),
        ("error", JVal.js "Invalid request")], db) : Except Raised (JVal × DB))
        = Except.ok (j, db') := h
    injection h' with hp
    injection hp with hj hdb
    exact Or.inl ⟨hj.symm, hdb.symm⟩
  | true =>
    unfold toggle_meal_eaten at h
    rw [if_pos rfl] at h
    cases hf : findMeal db u mealId with
    | none =>
      rw [hf] at h
      exact absurd h (by simp)
    | some m =>
      simp only [hf] at h
      cases hm : m.eaten with
      | true =>
        simp only [hm, Bool.not_true] at h
        injection h with hp
        injection hp with hj hdb
        refine Or.inr ⟨m, rfl, ?_, ?_⟩
        · rw [← hj]; simp [hm]
        · rw [← hdb]; simp [hm]
      | false =>
        simp only [hm, Bool.not_false] at h
        injection h with hp
        injection hp with hj hdb
        refine Or.inr ⟨m, rfl, ?_, ?_⟩
        · rw [← hj]; simp [hm]
        · rw [← hdb]; simp [hm]

/-- Case analysis of `add_meal_to_plan`: the success JSON with exactly
one appended row carrying the eaten defaults, or an error JSON with the
table untouched. -/
theorem add_meal_cases (u : Nat) (db : DB) (isPost : Bool)
    (body : Option AddBody) :
    ((add_meal_to_plan u db isPost body).1
        = JVal.jobj [("success", JVal.jb true)] ∧
      ∃ row : MealRow, (add_meal_to_plan u db isPost body).2
          = ⟨db.rows ++ [row], db.nextId + 1⟩ ∧
        row.eaten = false ∧ row.eaten_at = none) ∨
    ((∃ s, (add_meal_to_plan u db isPost body).1
        = JVal.jobj [("success", JVal.jb false), ("error", JVal.js s)]) ∧
      (add_meal_to_plan u db isPost body).2 = db) := by
  cases isPost with
  | false => exact Or.inr ⟨⟨_, rfl⟩, rfl⟩
  | true =>
    cases body with
    | none => exact Or.inr ⟨⟨_, rfl⟩, rfl⟩
    | some data =>
      cases hd : data.day with
      | none =>
        refine Or.inr ⟨⟨"'day'", ?_⟩, ?_⟩ <;>
          simp [add_meal_to_plan, hd]
      | some day =>
        cases hm : data.meal_type with
        | none =>
          refine Or.inr ⟨⟨"'meal_type'", ?_⟩, ?_⟩ <;>
            simp [add_meal_to_plan, hd, hm]
        | some mtype =>
          cases hn : data.name with
          | none =>
            refine Or.inr ⟨⟨"'name'", ?_⟩, ?_⟩ <;>
              simp [add_meal_to_plan, hd, hm, hn]
          | some nm =>
            cases hr : data.recipe_id with
            | none =>
              refine Or.inr ⟨⟨"'recipe_id'", ?_⟩, ?_⟩ <;>
                simp [add_meal_to_plan, hd, hm, hn, hr]
            | some rid =>
              refine Or.inl ⟨by simp [add_meal_to_plan, hd, hm, hn, hr],
                ⟨{ id := db.nextId
                   user := u
                   day := day
                   meal_type := mtype
                   meal_name := nm
                   spoonacular_id := some rid
                   calories := data.calories.getD 0
                   protein := ""
                   carbs := ""
                   fats := ""
                   image_url := data.image
                   eaten := false
                   eaten_at := none },
                 by simp [add_meal_to_plan, hd, hm, hn, hr], rfl, rfl⟩⟩

/-- C7: each of `replace_meal`, `toggle_meal_eaten` and
`add_meal_to_plan` returns a JSON object with a boolean `success` key;
on success `replace_meal` additionally returns `meal_name`, `calories`
and `image_url` and `toggle_meal_eaten` returns the new `eaten` flag; on
every failure path (non-POST requests included) the payload is a false
`success` flag together with an `error` string. -/
theorem json_success_error_shapes :
    (∀ (u mealId : Nat) (db : DB) (isPost : Bool)
      (r1 r2 : Option SearchPayload) (j : JVal) (db' : DB),
      replace_meal u mealId db isPost r1 r2 = Except.ok (j, db') →
      ∃ b, jLookup j "success" = some (JVal.jb b) ∧
        (b = false → ∃ s, jLookup j "error" = some (JVal.js s)) ∧
        (b = true →
          (∃ s, jLookup j "meal_name" = some (JVal.js s)) ∧
          (∃ n, jLookup j "calories" = some (JVal.ji n)) ∧
          (∃ v, jLookup j "image_url" = some v))) ∧
    (∀ (u mealId : Nat) (db : DB) (isPost : Bool) (now : ℤ)
      (j : JVal) (db' : DB),
      toggle_meal_eaten u mealId db isPost now = Except.ok (j, db') →
      ∃ b, jLookup j "success" = some (JVal.jb b) ∧
        (b = false → ∃ s, jLookup j "error" = some (JVal.js s)) ∧
        (b = true → ∃ e, jLookup j "eaten" = some (JVal.jb e))) ∧
    (∀ (u : Nat) (db : DB) (isPost : Bool) (body : Option AddBody),
      ∃ b, jLookup (add_meal_to_plan u db isPost body).1 "success"
          = some (JVal.jb b) ∧
        (b = false → ∃ s, jLookup (add_meal_to_plan u db isPost body).1 "error"
          = some (JVal.js s))) := by
  refine ⟨?_, ?_, ?_⟩
  · intro u mealId db isPost r1 r2 j db' h
    rcases replace_meal_ok_cases u mealId db isPost r1 r2 j db' h with
      ⟨_, s, rfl⟩ | ⟨m, hit, ttl, _, _, rfl, _⟩
    · exact ⟨false, rfl, fun _ => ⟨s, rfl⟩, fun hh => absurd hh (by decide)⟩
    · exact ⟨true, rfl, fun hh => absurd hh (by decide),
        fun _ => ⟨⟨ttl, rfl⟩, ⟨_, rfl⟩, ⟨_, rfl⟩⟩⟩
  · intro u mealId db isPost now j db' h
    rcases toggle_ok_cases u mealId db isPost now j db' h with
      ⟨rfl, _⟩ | ⟨m, _, rfl, _⟩
    · exact ⟨false, rfl, fun _ => ⟨_, rfl⟩, fun hh => absurd hh (by decide)⟩
    · exact ⟨true, rfl, fun hh => absurd hh (by decide), fun _ => ⟨_, rfl⟩⟩
  · intro u db isPost body
    rcases add_meal_cases u db isPost body with ⟨hj, _⟩ | ⟨⟨s, hj⟩, _⟩
    · exact ⟨true, by rw [hj]; rfl, fun hh => absurd hh (by decide)⟩
    · exact ⟨false, by rw [hj]; rfl, fun _ => ⟨s, by rw [hj]; rfl⟩⟩

/-- Witness for C7: a non-POST swap request yields the JSON error
payload, whose shape the theorem certifies. -/
theorem json_success_error_shapes_witness :
    (replace_meal 7 1 sampleDB false none none
      = Except.ok (JVal.jobj [("success", JVal.jb false),
          ("error", JVal.js "Could not find a replacement meal. Please try again later or check your API quota.")],
        sampleDB)) ∧
    (∃ b, jLookup (JVal.jobj [("success", JVal.jb false),
        ("error", JVal.js "Could not find a replacement meal. Please try again later or check your API quota.")])
        "success" = some (JVal.jb b) ∧
      (b = false → ∃ s, jLookup (JVal.jobj [("success", JVal.jb false),
        ("error", JVal.js "Could not find a replacement meal. Please try again later or check your API quota.")])
        "error" = some (JVal.js s)) ∧
      (b = true →
        (∃ s, jLookup (JVal.jobj [("success", JVal.jb false),
          ("error", JVal.js "Could not find a replacement meal. Please try again later or check your API quota.")])
          "meal_name" = some (JVal.js s)) ∧
        (∃ n, jLookup (JVal.jobj [("success", JVal.jb false),
          ("error", JVal.js "Could not find a replacement meal. Please try again later or check your API quota.")])
          "calories" = some (JVal.ji n)) ∧
        (∃ v, jLookup (JVal.jobj [("success", JVal.jb false),
          ("error", JVal.js "Could not find a replacement meal. Please try again later or check your API quota.")])
          "image_url" = some v))) :=
  ⟨rfl,
    json_success_error_shapes.1 7 1 sampleDB false none none _ sampleDB rfl⟩

/-- Saving a row keeps the table size. -/
theorem saveRow_length (db : DB) (w : MealRow) :
    (saveRow db w).rows.length = db.rows.length := by
  simp [saveRow]

/-- Saving a row rewrites exactly the positions whose primary key
matches. -/
theorem saveRow_get (db : DB) (w : MealRow) (k : Nat)
    (hk : k < db.rows.length) (hk' : k < (saveRow db w).rows.length) :
    (saveRow db w).rows.get ⟨k, hk'⟩
      = (if (db.rows.get ⟨k, hk⟩).id == w.id then w
         else db.rows.get ⟨k, hk⟩) := by
  simp [saveRow, List.get_eq_getElem, List.getElem_map]

/-- C8: a stored meal's `eaten_at` timestamp is non-null exactly when its
`eaten` flag is true, and every handler preserves this:
`toggle_meal_eaten` sets `eaten_at` to the current time exactly when it
flips `eaten` on and clears it when it flips `eaten` off, while
`generate_meal_plan`, `replace_meal` and `add_meal_to_plan` leave both
fields at the created defaults (false / null) or untouched. -/
theorem eaten_timestamp_invariant :
    (∀ (u : Nat) (db : DB) (pr : Option (Option Week))
      (dr : Option (List Recipe)),
      dbInv db → dbInv (generate_meal_plan u db pr dr).2) ∧
    (∀ (u : Nat) (db : DB) (pr : Option (Option Week))
      (dr : Option (List Recipe)) (r : MealRow),
      r ∈ (generate_meal_plan u db pr dr).2.rows → r ∉ db.rows →
      r.eaten = false ∧ r.eaten_at = none) ∧
    (∀ (u mealId : Nat) (db : DB) (isPost : Bool)
      (r1 r2 : Option SearchPayload) (j : JVal) (db' : DB), dbInv db →
      replace_meal u mealId db isPost r1 r2 = Except.ok (j, db') →
      dbInv db') ∧
    (∀ (u mealId : Nat) (db : DB) (isPost : Bool)
      (r1 r2 : Option SearchPayload) (j : JVal) (db' : DB),
      replace_meal u mealId db isPost r1 r2 = Except.ok (j, db') →
      ∀ r ∈ db'.rows, ∃ r0 ∈ db.rows,
        r.eaten = r0.eaten ∧ r.eaten_at = r0.eaten_at) ∧
    (∀ (u mealId : Nat) (db : DB) (isPost : Bool) (now : ℤ)
      (j : JVal) (db' : DB), dbInv db →
      toggle_meal_eaten u mealId db isPost now = Except.ok (j, db') →
      dbInv db') ∧
    (∀ (u mealId : Nat) (db : DB) (now : ℤ) (m : MealRow),
      findMeal db u mealId = some m →
      ∃ j db', toggle_meal_eaten u mealId db true now = Except.ok (j, db') ∧
        ∃ r ∈ db'.rows, r.id = m.id ∧ r.eaten = !m.eaten ∧
          r.eaten_at = (if m.eaten then none else some now)) ∧
    (∀ (u : Nat) (db : DB) (isPost : Bool) (body : Option AddBody),
      dbInv db → dbInv (add_meal_to_plan u db isPost body).2) ∧
    (∀ (u : Nat) (db : DB) (isPost : Bool) (body : Option AddBody)
      (r : MealRow),
      r ∈ (add_meal_to_plan u db isPost body).2.rows → r ∉ db.rows →
      r.eaten = false ∧ r.eaten_at = none) := by
  have hsave : ∀ (db : DB) (w : MealRow), dbInv db →
      w.eaten_at.isSome = w.eaten → dbInv (saveRow db w) := by
    intro db w hinv hw r hr
    simp only [saveRow, List.mem_map] at hr
    obtain ⟨x, hx, rfl⟩ := hr
    by_cases hid : (x.id == w.id) = true
    · simp only [hid, if_true]
      exact hw
    · simp only [hid, if_false]
      exact hinv x hx
  refine ⟨?_, ?_, ?_, ?_, ?_, ?_, ?_, ?_⟩
  · intro u db pr dr hinv
    match pr with
    | none => exact hinv
    | some none => exact hinv
    | some (some wk) =>
      match dr with
      | none => exact hinv
      | some ds =>
        cases hne : ds.isEmpty with
        | true =>
          have hz : (generate_meal_plan u db (some (some wk)) (some ds)).2 = db := by
            simp [generate_meal_plan, hne]
          rw [hz]; exact hinv
        | false =>
          intro r hr
          rw [generate_success_rows u db wk ds hne] at hr
          rcases List.mem_append.mp hr with hmem | hmem
          · exact hinv r (List.mem_of_mem_filter hmem)
          · obtain ⟨_, _, h3, h4⟩ := weekRows_forall u ds wk db.nextId r hmem
            rw [h3, h4]; rfl
  · intro u db pr dr r hr hnot
    match pr with
    | none => exact absurd hr hnot
    | some none => exact absurd hr hnot
    | some (some wk) =>
      match dr with
      | none => exact absurd hr hnot
      | some ds =>
        cases hne : ds.isEmpty with
        | true =>
          have hz : (generate_meal_plan u db (some (some wk)) (some ds)).2 = db := by
            simp [generate_meal_plan, hne]
          rw [hz] at hr
          exact absurd hr hnot
        | false =>
          rw [generate_success_rows u db wk ds hne] at hr
          rcases List.mem_append.mp hr with hmem | hmem
          · exact absurd (List.mem_of_mem_filter hmem) hnot
          · obtain ⟨_, _, h3, h4⟩ := weekRows_forall u ds wk db.nextId r hmem
            exact ⟨h3, h4⟩
  · intro u mealId db isPost r1 r2 j db' hinv h
    rcases replace_meal_ok_cases u mealId db isPost r1 r2 j db' h with
      ⟨rfl, _⟩ | ⟨m, hit, ttl, hf, _, _, rfl⟩
    · exact hinv
    · exact hsave db _ hinv (hinv m (List.mem_of_find?_eq_some hf))
  · intro u mealId db isPost r1 r2 j db' h r hr
    rcases replace_meal_ok_cases u mealId db isPost r1 r2 j db' h with
      ⟨rfl, _⟩ | ⟨m, hit, ttl, hf, _, _, rfl⟩
    · exact ⟨r, hr, rfl, rfl⟩
    · simp only [saveRow, List.mem_map] at hr
      obtain ⟨x, hx, rfl⟩ := hr
      by_cases hid : (x.id == ({ m with
          meal_name := ttl
          spoonacular_id := some hit.id
          calories := pyRound (nextAmount hit.nutrients "Calories" (m.calories : ℚ))
          image_url := hit.image } : MealRow).id) = true
      · simp only [hid, if_true]
        exact ⟨m, List.mem_of_find?_eq_some hf, rfl, rfl⟩
      · simp only [hid, if_false]
        exact ⟨x, hx, rfl, rfl⟩
  · intro u mealId db isPost now j db' hinv h
    rcases toggle_ok_cases u mealId db isPost now j db' h with
      ⟨_, rfl⟩ | ⟨m, _, _, rfl⟩
    · exact hinv
    · apply hsave db _ hinv
      cases hm : m.eaten <;> simp [hm]
  · intro u mealId db now m hf
    cases hm : m.eaten with
    | true =>
      refine ⟨JVal.jobj [("success", JVal.jb true), ("eaten", JVal.jb false)],
        saveRow db { m with eaten := false, eaten_at := none }, ?_, ?_⟩
      · simp [toggle_meal_eaten, hf, hm]
      · refine ⟨{ m with eaten := false, eaten_at := none }, ?_, rfl, ?_, ?_⟩
        · refine List.mem_map.mpr ⟨m, List.mem_of_find?_eq_some hf, ?_⟩
          simp
        · simp [hm]
        · simp [hm]
    | false =>
      refine ⟨JVal.jobj [("success", JVal.jb true), ("eaten", JVal.jb true)],
        saveRow db { m with eaten := true, eaten_at := some now }, ?_, ?_⟩
      · simp [toggle_meal_eaten, hf, hm]
      · refine ⟨{ m with eaten := true, eaten_at := some now }, ?_, rfl, ?_, ?_⟩
        · refine List.mem_map.mpr ⟨m, List.mem_of_find?_eq_some hf, ?_⟩
          simp
        · simp [hm]
        · simp [hm]
  · intro u db isPost body hinv
    rcases add_meal_cases u db isPost body with ⟨_, row, h2, hre, hra⟩ | ⟨_, h2⟩
    · rw [h2]
      intro r hr
      rcases List.mem_append.mp hr with hmem | hmem
      · exact hinv r hmem
      · rw [List.mem_singleton.mp hmem, hre, hra]; rfl
    · rw [h2]; exact hinv
  · intro u db isPost body r hr hnot
    rcases add_meal_cases u db isPost body with ⟨_, row, h2, hre, hra⟩ | ⟨_, h2⟩
    · rw [h2] at hr
      rcases List.mem_append.mp hr with hmem | hmem
      · exact absurd hmem hnot
      · rw [List.mem_singleton.mp hmem]; exact ⟨hre, hra⟩
    · rw [h2] at hr
      exact absurd hr hnot

/-- Witness for C8: the concrete table satisfies the invariant, a plan
generation preserves it, and toggling the not-yet-eaten row 1 stamps it
with the current date. -/
theorem eaten_timestamp_invariant_witness :
    dbInv sampleDB ∧
    findMeal sampleDB 7 1 = some rowMine ∧
    dbInv (generate_meal_plan 7 sampleDB (some (some sampleWeek)) (some [sampleDet])).2 ∧
    (∃ j db', toggle_meal_eaten 7 1 sampleDB true 42 = Except.ok (j, db') ∧
      ∃ r ∈ db'.rows, r.id = rowMine.id ∧ r.eaten = !rowMine.eaten ∧
        r.eaten_at = (if rowMine.eaten then none else some (42 : ℤ))) :=
  ⟨by unfold dbInv; decide, by decide,
    eaten_timestamp_invariant.1 7 sampleDB (some (some sampleWeek))
      (some [sampleDet]) (by unfold dbInv; decide),
    eaten_timestamp_invariant.2.2.2.2.2.1 7 1 sampleDB 42 rowMine (by decide)⟩

/-- C9: a successful swap modifies only the target meal's `meal_name`,
`spoonacular_id`, `calories` and `image_url`; its `day`, `meal_type`,
`protein`, `carbs`, `fats`, `eaten` and `eaten_at` fields are unchanged
(so the stored macro strings are not updated to match the replacement
recipe), and every other row is untouched. -/
theorem replace_success_frame (u mealId : Nat) (db : DB)
    (r1 r2 : Option SearchPayload) (j : JVal) (db' : DB)
    (hnd : (db.rows.map (fun r => r.id)).Nodup)
    (h : replace_meal u mealId db true r1 r2 = Except.ok (j, db'))
    (hsucc : jLookup j "success" = some (JVal.jb true)) :
    db'.rows.length = db.rows.length ∧
    ∀ (k : Nat) (hk : k < db.rows.length) (hk' : k < db'.rows.length),
      ((db.rows.get ⟨k, hk⟩).id ≠ mealId →
        db'.rows.get ⟨k, hk'⟩ = db.rows.get ⟨k, hk⟩) ∧
      ((db.rows.get ⟨k, hk⟩).id = mealId →
        (db'.rows.get ⟨k, hk'⟩).day = (db.rows.get ⟨k, hk⟩).day ∧
        (db'.rows.get ⟨k, hk'⟩).meal_type = (db.rows.get ⟨k, hk⟩).meal_type ∧
        (db'.rows.get ⟨k, hk'⟩).protein = (db.rows.get ⟨k, hk⟩).protein ∧
        (db'.rows.get ⟨k, hk'⟩).carbs = (db.rows.get ⟨k, hk⟩).carbs ∧
        (db'.rows.get ⟨k, hk'⟩).fats = (db.rows.get ⟨k, hk⟩).fats ∧
        (db'.rows.get ⟨k, hk'⟩).eaten = (db.rows.get ⟨k, hk⟩).eaten ∧
        (db'.rows.get ⟨k, hk'⟩).eaten_at = (db.rows.get ⟨k, hk⟩).eaten_at) := by
  rcases replace_meal_ok_cases u mealId db true r1 r2 j db' h with
    ⟨rfl, s, rfl⟩ | ⟨m, hit, ttl, hf, httl, rfl, rfl⟩
  · simp [jLookup] at hsucc
  · have hmid : m.id = mealId := by
      have hp := List.find?_some hf
      simp only [Bool.and_eq_true, beq_iff_eq] at hp
      exact hp.1
    have hmmem : m ∈ db.rows := List.mem_of_find?_eq_some hf
    refine ⟨saveRow_length db _, ?_⟩
    intro k hk hk'
    have hget := saveRow_get db
      { m with
        meal_name := ttl
        spoonacular_id := some hit.id
        calories := pyRound (nextAmount hit.nutrients "Calories" (m.calories : ℚ))
        image_url := hit.image } k hk hk'
    constructor
    · intro hne
      rw [hget]
      have hb : ((db.rows.get ⟨k, hk⟩).id
          == ({ m with
                meal_name := ttl
                spoonacular_id := some hit.id
                calories := pyRound (nextAmount hit.nutrients "Calories" (m.calories : ℚ))
                image_url := hit.image } : MealRow).id) = false := by
        rw [beq_eq_false_iff_ne]
        intro hh
        exact hne (by rw [hh]; exact hmid)
      rw [hb]
      simp
    · intro heq
      have hrm : db.rows.get ⟨k, hk⟩ = m := by
        apply List.inj_on_of_nodup_map hnd (List.get_mem db.rows k hk) hmmem
        rw [heq, hmid]
      rw [hget, hrm]
      simp

/-- Witness for C9: swapping row 1 of the concrete table replaces its
name, recipe id, calories and image but leaves its macros, slot, day and
eaten state - and the other rows - unchanged. -/
theorem replace_success_frame_witness :
    ((sampleDB.rows.map (fun r => r.id)).Nodup) ∧
    (replace_meal 7 1 sampleDB true (some samplePayload) none
      = Except.ok (JVal.jobj [("success", JVal.jb true),
          ("meal_name", JVal.js "New dish"), ("calories", JVal.ji 200),
          ("image_url", JVal.js "nimg")],
        ⟨[rowOther,
          { rowMine with
            meal_name := "New dish"
            spoonacular_id := some 77
            calories := 200
            image_url := some "nimg" },
          rowMineEaten], 3⟩)) ∧
    (jLookup (JVal.jobj [("success", JVal.jb true),
        ("meal_name", JVal.js "New dish"), ("calories", JVal.ji 200),
        ("image_url", JVal.js "nimg")]) "success" = some (JVal.jb true)) ∧
    ((⟨[rowOther,
        { rowMine with
          meal_name := "New dish"
          spoonacular_id := some 77
          calories := 200
          image_url := some "nimg" },
        rowMineEaten], 3⟩ : DB).rows.length = sampleDB.rows.length ∧
    ∀ (k : Nat) (hk : k < sampleDB.rows.length)
      (hk' : k < (⟨[rowOther,
        { rowMine with
          meal_name := "New dish"
          spoonacular_id := some 77
          calories := 200
          image_url := some "nimg" },
        rowMineEaten], 3⟩ : DB).rows.length),
      ((sampleDB.rows.get ⟨k, hk⟩).id ≠ 1 →
        (⟨[rowOther,
          { rowMine with
            meal_name := "New dish"
            spoonacular_id := some 77
            calories := 200
            image_url := some "nimg" },
          rowMineEaten], 3⟩ : DB).rows.get ⟨k, hk'⟩ = sampleDB.rows.get ⟨k, hk⟩) ∧
      ((sampleDB.rows.get ⟨k, hk⟩).id = 1 →
        ((⟨[rowOther,
          { rowMine with
            meal_name := "New dish"
            spoonacular_id := some 77
            calories := 200
            image_url := some "nimg" },
          rowMineEaten], 3⟩ : DB).rows.get ⟨k, hk'⟩).day = (sampleDB.rows.get ⟨k, hk⟩).day ∧
        ((⟨[rowOther,
          { rowMine with
            meal_name := "New dish"
            spoonacular_id := some 77
            calories := 200
            image_url := some "nimg" },
          rowMineEaten], 3⟩ : DB).rows.get ⟨k, hk'⟩).meal_type = (sampleDB.rows.get ⟨k, hk⟩).meal_type ∧
        ((⟨[rowOther,
          { rowMine with
            meal_name := "New dish"
            spoonacular_id := some 77
            calories := 200
            image_url := some "nimg" },
          rowMineEaten], 3⟩ : DB).rows.get ⟨k, hk'⟩).protein = (sampleDB.rows.get ⟨k, hk⟩).protein ∧
        ((⟨[rowOther,
          { rowMine with
            meal_name := "New dish"
            spoonacular_id := some 77
            calories := 200
            image_url := some "nimg" },
          rowMineEaten], 3⟩ : DB).rows.get ⟨k, hk'⟩).carbs = (sampleDB.rows.get ⟨k, hk⟩).carbs ∧
        ((⟨[rowOther,
          { rowMine with
            meal_name := "New dish"
            spoonacular_id := some 77
            calories := 200
            image_url := some "nimg" },
          rowMineEaten], 3⟩ : DB).rows.get ⟨k, hk'⟩).fats = (sampleDB.rows.get ⟨k, hk⟩).fats ∧
        ((⟨[rowOther,
          { rowMine with
            meal_name := "New dish"
            spoonacular_id := some 77
            calories := 200
            image_url := some "nimg" },
          rowMineEaten], 3⟩ : DB).rows.get ⟨k, hk'⟩).eaten = (sampleDB.rows.get ⟨k, hk⟩).eaten ∧
        ((⟨[rowOther,
          { rowMine with
            meal_name := "New dish"
            spoonacular_id := some 77
            calories := 200
            image_url := some "nimg" },
          rowMineEaten], 3⟩ : DB).rows.get ⟨k, hk'⟩).eaten_at = (sampleDB.rows.get ⟨k, hk⟩).eaten_at)) :=
  by
  have hfm : findMeal sampleDB 7 1 = some rowMine := by decide
  have hres : samplePayload.results = some [sampleHit] := rfl
  have hcal : sampleHit.nutrients.find? (fun x => x.name == "Calories") = none := by
    decide
  have httl : sampleHit.title = some "New dish" := rfl
  have heq : replace_meal 7 1 sampleDB true (some samplePayload) none
      = Except.ok (JVal.jobj [("success", JVal.jb true),
          ("meal_name", JVal.js "New dish"),
          ("calories", JVal.ji rowMine.calories),
          ("image_url", jOptStr sampleHit.image)],
        saveRow sampleDB
          { rowMine with
            meal_name := "New dish"
            spoonacular_id := some sampleHit.id
            calories := rowMine.calories
            image_url := sampleHit.image }) := by
    simp [replace_meal, replaceWithPayload, hfm, listTruthy, resultsOrRecipes,
      hres, nextAmount, hcal, httl, pyRound_intCast]
  have h : replace_meal 7 1 sampleDB true (some samplePayload) none
      = Except.ok (JVal.jobj [("success", JVal.jb true),
          ("meal_name", JVal.js "New dish"), ("calories", JVal.ji 200),
          ("image_url", JVal.js "nimg")],
        (⟨[rowOther,
          { rowMine with
            meal_name := "New dish"
            spoonacular_id := some 77
            calories := 200
            image_url := some "nimg" },
          rowMineEaten], 3⟩ : DB)) := by
    rw [heq]; rfl
  exact ⟨by decide, h, rfl,
    replace_success_frame 7 1 sampleDB (some samplePayload) none _ _
      (by decide) h rfl⟩

end SmartBite
